import Mathlib

/-!
Verification of `0x02-redis_basic/web.py`: an expiring web cache with
per-URL request counting, backed by a Redis store.

The Python module exposes three operations over a shared Redis client `r`:

* `get_page(url)` — decorated by `count_calls`, so each invocation first runs
  `r.incr("count:" + url)`; the body then reads `r.get("cache:" + url)`,
  returns the cached bytes decoded as UTF-8 when the value is truthy,
  and otherwise performs `requests.get(url)`, caches `response.text` with
  `r.setex("cache:" + url, 10, ...)` and returns it.
* `get_count(url)` — reads `r.get("count:" + url)` and parses the decimal
  value, returning 0 for an absent or empty value.
* `reset_count(url)` — `r.delete("count:" + url)`.

The embedding below models the Redis store as a map from string keys to
string values (Redis values are byte strings; byte strings are modeled as
`String`, so `.decode("utf-8")` is the identity) together with per-key
absolute expiry timestamps and a current clock.  The single outbound HTTP
request a `get_page` invocation may perform is modeled by an oracle value
of type `Except NetErr Response`: what `requests.get(url)` would produce
if it were called at that moment.
-/

namespace WebCache

/-! ### Definitions: decimal integer codec

Redis stores counters as decimal strings: `INCR` parses the stored string
as an integer and writes back the decimal representation of the successor,
and Python's `int()` parses the same representation in `get_count`. -/

/-- Whether a character is a decimal digit `'0'`–`'9'`. -/
def isDigitChar (c : Char) : Bool :=
  48 ≤ c.toNat && c.toNat ≤ 57

/-- Horner-style value of a most-significant-first decimal digit string,
as parsed by Redis `INCR` and Python `int()`. -/
def decValue (l : List Char) : Nat :=
  l.foldl (fun a c => a * 10 + (c.toNat - 48)) 0

/-- Parse a string as a nonnegative decimal integer: nonempty and all
digits, as required by Redis `INCR` and Python `int()` for the values this
program stores. -/
def decToNat? (s : String) : Option Nat :=
  if !s.data.isEmpty && s.data.all isDigitChar then some (decValue s.data) else none

/-- Digits of `n`, most significant first, with fuel (`fuel ≥ n` suffices);
`natToDecAux fuel 0 = []`. -/
def natToDecAux : Nat → Nat → List Char
  | 0, _ => []
  | fuel + 1, n =>
    if n = 0 then [] else natToDecAux fuel (n / 10) ++ [Nat.digitChar (n % 10)]

/-- The decimal-string representation of `n`, as Redis stores integers. -/
def natToDec (n : Nat) : String :=
  if n = 0 then "0" else ⟨natToDecAux n n⟩

/-! ### Definitions: the Redis store

`RedisState` models the store the module's shared client `r` talks to:
string values per key, an optional absolute expiry timestamp per key, and
the current clock.  A key whose expiry has been reached is logically
deleted: every read goes through `RedisState.get`. -/

/-- The Redis store: values, per-key absolute expiry timestamps, clock. -/
@[ext] structure RedisState where
  data : String → Option String
  expiry : String → Option Nat
  now : Nat

/-- `r.get key`: the live value at `key`, `none` if absent or expired
(Redis `GET` — an expired key reads as nonexistent). -/
def RedisState.get (st : RedisState) (key : String) : Option String :=
  match st.data key, st.expiry key with
  | none, _ => none
  | some v, none => some v
  | some v, some e => if st.now < e then some v else none

/-- `r.setex key ttl v`: store `v` at `key` with a time-to-live of `ttl`,
i.e. absolute expiry `now + ttl` (Redis `SETEX`). -/
def RedisState.setex (st : RedisState) (key : String) (ttl : Nat) (v : String) :
    RedisState :=
  { st with
    data := fun k => if k = key then some v else st.data k
    expiry := fun k => if k = key then some (st.now + ttl) else st.expiry k }

/-- `r.delete key`: remove `key` (Redis `DEL`; deleting an absent key is a
no-op returning 0, not an error). -/
def RedisState.del (st : RedisState) (key : String) : RedisState :=
  { st with
    data := fun k => if k = key then none else st.data k
    expiry := fun k => if k = key then none else st.expiry k }

/-- `r.incr key` (Redis `INCR`): read the live value at `key`; an absent or
expired key counts as 0 and the key is created fresh (clearing any residual
expiry of the expired slot) with value `"1"`; an existing value must parse
as a decimal integer — otherwise Redis raises an error — and is replaced by
the decimal representation of its successor, with the key's time-to-live
untouched.  Returns the new value. -/
def RedisState.incr (st : RedisState) (key : String) :
    Except String (Nat × RedisState) :=
  match st.get key with
  | none =>
    .ok (1, { st with
      data := fun k => if k = key then some (natToDec 1) else st.data k
      expiry := fun k => if k = key then none else st.expiry k })
  | some v =>
    match decToNat? v with
    | none => .error "value is not an integer or out of range"
    | some n =>
      .ok (n + 1, { st with
        data := fun k => if k = key then some (natToDec (n + 1)) else st.data k })

/-- The passage of `d` units of time; no store operation moves the clock. -/
def RedisState.advance (st : RedisState) (d : Nat) : RedisState :=
  { st with now := st.now + d }

/-! ### Definitions: the HTTP layer -/

/-- The failures `requests.get` can raise: timeouts and refused
connections surface as exceptions.  A response with a non-2xx status is
*not* an error for `requests.get` — it is returned as a normal response. -/
inductive NetErr where
  | timeout
  | connectionRefused
deriving DecidableEq

/-- An HTTP response as seen through `requests`: status code and body text
(`response.text`). -/
structure Response where
  status : Nat
  text : String
deriving DecidableEq

/-- An exception propagating out of a `get_page` call: a `requests`
exception from the network, or a Redis error. -/
inductive PyErr where
  | net (e : NetErr)
  | redis (msg : String)
deriving DecidableEq

/-- `.decode("utf-8")` on the bytes read back from Redis; byte strings are
modeled as `String`, so decoding is the identity. -/
def decode_utf8 (b : String) : String := b

/-- Python truthiness of `r.get`'s result: `None` and the empty byte
string are falsy, any nonempty byte string is truthy. -/
def truthy : Option String → Bool
  | none => false
  | some s => !s.isEmpty

/-- What one invocation of the (decorated) `get_page` produced: the value
returned or exception raised, the resulting store state, and whether
`requests.get` was invoked. -/
structure FetchOutcome where
  result : Except PyErr String
  state : RedisState
  networkCalled : Bool

/-! ### Definitions: the module's functions -/

/-- The body of `get_page` (`web.py` lines 36–63), before the
`@count_calls` decorator is applied: look up `cache:<url>`; if the value is
truthy, return it decoded; otherwise perform the HTTP GET (`net` is what
`requests.get url` produces at this moment), cache `response.text` under
`cache:<url>` with a 10-second expiry, and return it.  A `requests`
exception propagates before the cache write. -/
def get_page_inner (net : Except NetErr Response) (st : RedisState) (url : String) :
    FetchOutcome :=
  let cache_key := "cache:" ++ url
  let cached_content := st.get cache_key
  if truthy cached_content then
    { result := .ok (decode_utf8 (cached_content.getD ""))
      state := st
      networkCalled := false }
  else
    match net with
    | .error e => { result := .error (.net e), state := st, networkCalled := true }
    | .ok response =>
      let html_content := response.text
      { result := .ok html_content
        state := st.setex cache_key 10 html_content
        networkCalled := true }

/-- The `count_calls` decorator (`web.py` lines 12–33): the wrapper first
runs `r.incr("count:" + url)` and then delegates to the wrapped method.  A
Redis error from `incr` propagates before the method runs. -/
def count_calls (method : Except NetErr Response → RedisState → String → FetchOutcome)
    (net : Except NetErr Response) (st : RedisState) (url : String) : FetchOutcome :=
  match st.incr ("count:" ++ url) with
  | .error msg => { result := .error (.redis msg), state := st, networkCalled := false }
  | .ok (_, st1) => method net st1 url

/-- `get_page` as exported: the body wrapped by `@count_calls`. -/
def get_page : Except NetErr Response → RedisState → String → FetchOutcome :=
  count_calls get_page_inner

/-- `get_count(url)` (`web.py` lines 65–76): read `count:<url>` and return
`int(count) if count else 0`.  An absent key or empty value yields 0; the
stored value otherwise parses as a decimal integer (every value this
program writes there does; a non-numeric value would raise `ValueError` in
Python and is mapped to 0 here, a case no reachable store exhibits). -/
def get_count (st : RedisState) (url : String) : Nat :=
  match st.get ("count:" ++ url) with
  | none => 0
  | some count => if count = "" then 0 else (decToNat? count).getD 0

/-- `reset_count(url)` (`web.py` lines 78–85): `r.delete("count:" + url)`. -/
def reset_count (st : RedisState) (url : String) : RedisState :=
  st.del ("count:" ++ url)

/-- The precondition for `r.incr("count:" + url)` not to raise: the
counter slot is absent (or expired) or holds a decimal integer.  Every
store state the program itself can produce satisfies this. -/
def countOk (st : RedisState) (url : String) : Prop :=
  match st.get ("count:" ++ url) with
  | none => True
  | some v => (decToNat? v).isSome = true

instance (st : RedisState) (url : String) : Decidable (countOk st url) := by
  unfold countOk
  match st.get ("count:" ++ url) with
  | none => exact inferInstanceAs (Decidable True)
  | some v => exact inferInstanceAs (Decidable _)

/-! ### Definitions: traces of operations -/

instance {ε α : Type} [DecidableEq ε] [DecidableEq α] : DecidableEq (Except ε α) :=
  fun a b => by
    cases a with
    | error e1 =>
      cases b with
      | error e2 => exact decidable_of_iff (e1 = e2) (by simp)
      | ok r2 => exact isFalse (by simp)
    | ok r1 =>
      cases b with
      | error e2 => exact isFalse (by simp)
      | ok r2 => exact decidable_of_iff (r1 = r2) (by simp)

/-- An observable event in a run of the module: a `get_page` invocation
(with the response the network would give at that moment), the passage of
time, or a `reset_count`. -/
inductive Ev where
  | fetch (url : String) (net : Except NetErr Response)
  | tick (d : Nat)
  | reset (url : String)
deriving DecidableEq

/-- Run a list of events against the store. -/
def run : List Ev → RedisState → RedisState
  | [], st => st
  | Ev.fetch u net :: evs, st => run evs (get_page net st u).state
  | Ev.tick d :: evs, st => run evs (st.advance d)
  | Ev.reset u :: evs, st => run evs (reset_count st u)

/-- How many `fetch u` invocations a trace contains. -/
def countFetches (u : String) (evs : List Ev) : Nat :=
  evs.countP fun e =>
    match e with
    | Ev.fetch u2 _ => u2 == u
    | _ => false

/-- Invariant tying the store to the abstract count `n` for URL `u`: the
counter is absent (count 0), or holds the decimal value of `n` with no
expiry set — the shape every counter written by this program has. -/
def CountInv (st : RedisState) (u : String) (n : Nat) : Prop :=
  (n = 0 ∧ st.get ("count:" ++ u) = none) ∨
  (0 < n ∧ st.data ("count:" ++ u) = some (natToDec n) ∧
    st.expiry ("count:" ++ u) = none)

/-! ### Definitions: concrete states and traces used by the witnesses -/

/-- The empty store at time 0 (what the self-test's `flushall` leaves). -/
def emptyStore : RedisState :=
  { data := fun _ => none, expiry := fun _ => none, now := 0 }

/-- A store holding a nonempty cached body for URL `"u"`. -/
def stCached : RedisState :=
  { data := fun k => if k = "cache:" ++ "u" then some "hello" else none
    expiry := fun _ => none
    now := 0 }

/-- A store holding an *empty* cached body for URL `"u"`: the cache entry
is present, but falsy for Python. -/
def stEmptyCached : RedisState :=
  { data := fun k => if k = "cache:" ++ "u" then some "" else none
    expiry := fun _ => none
    now := 0 }

/-- The store `INCR` produces from `emptyStore` for URL `"u"`. -/
def stCount1 : RedisState :=
  { data := fun k => if k = "count:" ++ "u" then some (natToDec 1) else none
    expiry := fun k => if k = "count:" ++ "u" then none else none
    now := 0 }

/-- A sample trace: two fetches of `"u"` (the second a cache hit), time
passing beyond the TTL, a fetch and a reset of another URL, and a third
fetch of `"u"` (a miss again) that fails on the network. -/
def exEvs : List Ev :=
  [Ev.fetch "u" (.ok ⟨200, "hello"⟩), Ev.fetch "u" (.ok ⟨200, "bye"⟩),
   Ev.tick 20, Ev.fetch "v" (.ok ⟨200, "x"⟩), Ev.reset "v",
   Ev.fetch "u" (.error .timeout)]

/-! ### Lemmas: the decimal codec round-trips -/

theorem natToDecAux_zero (fuel : Nat) : natToDecAux fuel 0 = [] := by
  cases fuel <;> simp [natToDecAux]

theorem digitChar_toNat : ∀ d, d < 10 → (Nat.digitChar d).toNat = 48 + d := by
  decide

theorem isDigitChar_digitChar : ∀ d, d < 10 → isDigitChar (Nat.digitChar d) = true := by
  decide

theorem decValue_append_digit (l : List Char) (c : Char) :
    decValue (l ++ [c]) = decValue l * 10 + (c.toNat - 48) := by
  simp [decValue, List.foldl_append]

theorem natToDecAux_spec :
    ∀ fuel n, 0 < n → n ≤ fuel →
      natToDecAux fuel n ≠ [] ∧ (natToDecAux fuel n).all isDigitChar = true ∧
        decValue (natToDecAux fuel n) = n := by
  intro fuel
  induction fuel with
  | zero => intro n h1 h2; omega
  | succ f ih =>
    intro n h1 h2
    have hne : n ≠ 0 := Nat.pos_iff_ne_zero.mp h1
    have hmod : n % 10 < 10 := Nat.mod_lt _ (by norm_num)
    simp only [natToDecAux, hne, if_false]
    by_cases hsmall : n < 10
    · have hdiv : n / 10 = 0 := Nat.div_eq_of_lt hsmall
      have hm : n % 10 = n := Nat.mod_eq_of_lt hsmall
      rw [hdiv, natToDecAux_zero]
      refine ⟨by simp, by simp [isDigitChar_digitChar _ hmod], ?_⟩
      rw [hm, decValue_append_digit, digitChar_toNat n hsmall]
      simp only [decValue, List.foldl_nil]
      omega
    · have hdpos : 0 < n / 10 := by omega
      have hdle : n / 10 ≤ f := by omega
      obtain ⟨hne', hall', hval'⟩ := ih (n / 10) hdpos hdle
      refine ⟨by simp, ?_, ?_⟩
      · simp [List.all_append, hall', isDigitChar_digitChar _ hmod]
      · rw [decValue_append_digit, hval', digitChar_toNat _ hmod]
        omega

/-- Decimal printing and parsing round-trip. -/
theorem decToNat?_natToDec (n : Nat) : decToNat? (natToDec n) = some n := by
  by_cases h : n = 0
  · subst h; decide
  · have hp : 0 < n := Nat.pos_iff_ne_zero.mpr h
    obtain ⟨hne, hall, hval⟩ := natToDecAux_spec n n hp le_rfl
    simp only [natToDec, h, if_false, decToNat?]
    simp [List.isEmpty_iff, hne, hall, hval]

theorem decToNat?_ne_empty {v : String} {n : Nat} (h : decToNat? v = some n) :
    v ≠ "" := by
  intro hv
  subst hv
  simp [decToNat?] at h

theorem natToDec_ne_empty (n : Nat) : natToDec n ≠ "" := by
  by_cases h : n = 0
  · subst h; decide
  · have hp : 0 < n := Nat.pos_iff_ne_zero.mpr h
    obtain ⟨hne, -, -⟩ := natToDecAux_spec n n hp le_rfl
    simp only [natToDec, h, if_false]
    intro hcon
    exact hne (congrArg String.data hcon)

/-! ### Lemmas: key spaces and store operations -/

theorem string_append_left_cancel {p u v : String} (h : p ++ u = p ++ v) : u = v := by
  have hd : p.data ++ u.data = p.data ++ v.data := by
    rw [← String.data_append, ← String.data_append, h]
  have hd2 : u.data = v.data := List.append_cancel_left hd
  cases u
  cases v
  exact congrArg String.mk hd2

/-- Counter keys and cache keys never collide. -/
theorem count_key_ne_cache_key (u v : String) : "count:" ++ u ≠ "cache:" ++ v := by
  intro h
  have hd : ("count:" ++ u).data = ("cache:" ++ v).data := congrArg String.data h
  rw [String.data_append, String.data_append] at hd
  have h1 : ("count:" : String).data = ['c', 'o', 'u', 'n', 't', ':'] := rfl
  have h2 : ("cache:" : String).data = ['c', 'a', 'c', 'h', 'e', ':'] := rfl
  rw [h1, h2] at hd
  have h3 : (['c', 'o', 'u', 'n', 't', ':'] ++ u.data)[1]? = some 'o' := rfl
  rw [hd] at h3
  have h4 : (['c', 'a', 'c', 'h', 'e', ':'] ++ v.data)[1]? = some 'a' := rfl
  rw [h4] at h3
  exact absurd h3 (by decide)

theorem count_key_inj {u v : String} (h : u ≠ v) : "count:" ++ u ≠ "count:" ++ v :=
  fun hc => h (string_append_left_cancel hc)

theorem truthy_some_iff {s : String} : truthy (some s) = true ↔ s ≠ "" := by
  constructor
  · intro h1 h2
    subst h2
    exact absurd h1 (by decide)
  · intro h1
    have hs : s.isEmpty = false := by
      cases hs : s.isEmpty
      · rfl
      · exact absurd ((String.isEmpty_iff s).mp hs) h1
    simp [truthy, hs]

theorem truthy_eq_false_iff {o : Option String} :
    truthy o = false ↔ o = none ∨ o = some "" := by
  cases o with
  | none => simp [truthy]
  | some s =>
    simp only [truthy]
    constructor
    · intro h1
      right
      exact congrArg some ((String.isEmpty_iff s).mp (by simpa using h1))
    · rintro (h | h)
      · exact absurd h (by simp)
      · obtain rfl : s = "" := Option.some.inj h
        decide

/-- `RedisState.get` depends only on the key's slot and the clock. -/
theorem get_congr {st2 st : RedisState} {k : String} (h1 : st2.data k = st.data k)
    (h2 : st2.expiry k = st.expiry k) (h3 : st2.now = st.now) :
    st2.get k = st.get k := by
  unfold RedisState.get
  rw [h1, h2, h3]

/-- A live key stays readable in a state that rewrites its value without
touching its expiry or the clock. -/
theorem get_some_of_live {st2 st : RedisState} {k w v : String}
    (hgv : st.get k = some v) (hd : st2.data k = some w)
    (he : st2.expiry k = st.expiry k) (hn : st2.now = st.now) :
    st2.get k = some w := by
  unfold RedisState.get at hgv ⊢
  rw [hd, he, hn]
  cases hek : st.expiry k with
  | none => rfl
  | some e =>
    rw [hek] at hgv
    cases hdk : st.data k with
    | none => rw [hdk] at hgv; cases hgv
    | some v0 =>
      rw [hdk] at hgv
      by_cases hlt : st.now < e
      · simp [hlt]
      · simp [hlt] at hgv

/-- Full characterisation of a successful `INCR`. -/
theorem incr_spec {st st1 : RedisState} {key : String} {m : Nat}
    (h : st.incr key = .ok (m, st1)) :
    st1.now = st.now ∧
    (∀ k, k ≠ key → st1.data k = st.data k ∧ st1.expiry k = st.expiry k) ∧
    st1.data key = some (natToDec m) ∧
    ((st.get key = none ∧ m = 1 ∧ st1.expiry key = none) ∨
      (∃ v n, st.get key = some v ∧ decToNat? v = some n ∧ m = n + 1 ∧
        st1.expiry key = st.expiry key)) := by
  cases hg : st.get key with
  | none =>
    simp only [RedisState.incr, hg, Except.ok.injEq, Prod.mk.injEq] at h
    obtain ⟨hm, hst⟩ := h
    subst hm
    subst hst
    refine ⟨rfl, ?_, by simp, Or.inl ⟨rfl, rfl, by simp⟩⟩
    intro k hk
    simp [hk]
  | some v =>
    cases hd : decToNat? v with
    | none => simp [RedisState.incr, hg, hd] at h
    | some n =>
      simp only [RedisState.incr, hg, hd, Except.ok.injEq, Prod.mk.injEq] at h
      obtain ⟨hm, hst⟩ := h
      subst hm
      subst hst
      refine ⟨rfl, ?_, by simp, Or.inr ⟨v, n, rfl, hd, rfl, rfl⟩⟩
      intro k hk
      simp [hk]

/-- `countOk` is exactly the condition for `INCR` on the counter key to
succeed. -/
theorem countOk_incr {st : RedisState} {u : String} (h : countOk st u) :
    ∃ m st1, st.incr ("count:" ++ u) = .ok (m, st1) := by
  cases hg : st.get ("count:" ++ u) with
  | none =>
    simp only [RedisState.incr, hg]
    exact ⟨1, _, rfl⟩
  | some v =>
    simp only [countOk, hg] at h
    cases hd : decToNat? v with
    | none => rw [hd] at h; cases h
    | some n =>
      simp only [RedisState.incr, hg, hd]
      exact ⟨n + 1, _, rfl⟩

theorem get_count_of_get_none {st : RedisState} {u : String}
    (h : st.get ("count:" ++ u) = none) : get_count st u = 0 := by
  unfold get_count
  rw [h]

theorem get_count_of_get_some {st : RedisState} {u v : String} {n : Nat}
    (hg : st.get ("count:" ++ u) = some v) (hv : decToNat? v = some n) :
    get_count st u = n := by
  simp only [get_count, hg]
  rw [if_neg (decToNat?_ne_empty hv), hv]
  rfl

theorem get_count_of_get_num {st : RedisState} {u : String} {n : Nat}
    (h : st.get ("count:" ++ u) = some (natToDec n)) : get_count st u = n :=
  get_count_of_get_some h (decToNat?_natToDec n)

/-! ### Lemmas: the shape of a `get_page` run -/

/-- When the decorator's `INCR` succeeds, `get_page` is the undecorated
body run in the incremented state. -/
theorem get_page_eq_inner {st st1 : RedisState} {u : String} {m : Nat}
    (h : st.incr ("count:" ++ u) = .ok (m, st1)) (net : Except NetErr Response) :
    get_page net st u = get_page_inner net st1 u := by
  unfold get_page count_calls
  rw [h]

/-- When the decorator's `INCR` raises, the exception propagates and the
store is untouched. -/
theorem get_page_eq_redis_error {st : RedisState} {u msg : String}
    (h : st.incr ("count:" ++ u) = .error msg) (net : Except NetErr Response) :
    get_page net st u =
      { result := .error (.redis msg), state := st, networkCalled := false } := by
  unfold get_page count_calls
  rw [h]

/-- Cache hit: a truthy (nonempty) cached value is returned decoded, with
no network call and no store write. -/
theorem get_page_inner_hit {st : RedisState} {u c : String}
    (hc : st.get ("cache:" ++ u) = some c) (hne : c ≠ "")
    (net : Except NetErr Response) :
    get_page_inner net st u =
      { result := .ok (decode_utf8 c), state := st, networkCalled := false } := by
  simp only [get_page_inner]
  rw [hc, if_pos (truthy_some_iff.mpr hne)]
  rfl

/-- Cache miss with a network failure: the `requests` exception
propagates; no store write happens. -/
theorem get_page_inner_miss_err {st : RedisState} {u : String}
    (hc : truthy (st.get ("cache:" ++ u)) = false) (e : NetErr) :
    get_page_inner (.error e) st u =
      { result := .error (.net e), state := st, networkCalled := true } := by
  simp only [get_page_inner]
  rw [hc]
  rfl

/-- Cache miss with a network response: `response.text` is cached for 10
seconds and returned, whatever the status code. -/
theorem get_page_inner_miss_ok {st : RedisState} {u : String}
    (hc : truthy (st.get ("cache:" ++ u)) = false) (resp : Response) :
    get_page_inner (.ok resp) st u =
      { result := .ok resp.text
        state := st.setex ("cache:" ++ u) 10 resp.text
        networkCalled := true } := by
  simp only [get_page_inner]
  rw [hc]
  rfl

/-- The undecorated body only ever writes the cache key: every other slot,
and the clock, is preserved. -/
theorem get_page_inner_preserves {st : RedisState} {u k : String}
    (net : Except NetErr Response) (hk : k ≠ "cache:" ++ u) :
    (get_page_inner net st u).state.data k = st.data k ∧
    (get_page_inner net st u).state.expiry k = st.expiry k ∧
    (get_page_inner net st u).state.now = st.now := by
  simp only [get_page_inner]
  cases htr : truthy (st.get ("cache:" ++ u))
  · cases net with
    | error e => simp
    | ok resp =>
      refine ⟨?_, ?_, rfl⟩ <;> simp [RedisState.setex, hk]
  · simp

/-- A `get_page` run whose `INCR` succeeded preserves every slot other
than its own counter and cache keys, and never moves the clock. -/
theorem get_page_preserves {st st1 : RedisState} {u k : String} {m : Nat}
    (h : st.incr ("count:" ++ u) = .ok (m, st1))
    (net : Except NetErr Response)
    (hk1 : k ≠ "count:" ++ u) (hk2 : k ≠ "cache:" ++ u) :
    (get_page net st u).state.data k = st.data k ∧
    (get_page net st u).state.expiry k = st.expiry k ∧
    (get_page net st u).state.now = st.now := by
  rw [get_page_eq_inner h net]
  obtain ⟨hd, he, hn⟩ := @get_page_inner_preserves st1 u k net hk2
  obtain ⟨-, hother, -, -⟩ := incr_spec h
  obtain ⟨hd1, he1⟩ := hother k hk1
  have hn1 : st1.now = st.now := (incr_spec h).1
  exact ⟨hd.trans hd1, he.trans he1, hn.trans hn1⟩

/-- After a successful `INCR` of the counter, the final state of the run
holds the incremented decimal value at the counter key, with the counter's
expiry and the clock as `INCR` left them. -/
theorem get_page_count_slot {st st1 : RedisState} {u : String} {m : Nat}
    (h : st.incr ("count:" ++ u) = .ok (m, st1))
    (net : Except NetErr Response) :
    (get_page net st u).state.data ("count:" ++ u) = some (natToDec m) ∧
    (get_page net st u).state.expiry ("count:" ++ u) = st1.expiry ("count:" ++ u) ∧
    (get_page net st u).state.now = st.now := by
  rw [get_page_eq_inner h net]
  obtain ⟨hd, he, hn⟩ :=
    @get_page_inner_preserves st1 u ("count:" ++ u) net (count_key_ne_cache_key u u)
  obtain ⟨hn1, -, hdata, -⟩ := incr_spec h
  exact ⟨hd.trans hdata, he, hn.trans hn1⟩

/-! ### Lemmas: the counter through a run -/

/-- After a successful `INCR`, the key reads back as the incremented
decimal value. -/
theorem incr_get_after {st st1 : RedisState} {key : String} {m : Nat}
    (h : st.incr key = .ok (m, st1)) : st1.get key = some (natToDec m) := by
  obtain ⟨hnow, -, hdata, hcases⟩ := incr_spec h
  rcases hcases with ⟨-, -, hexp⟩ | ⟨v, n, hgv, -, -, hexp⟩
  · unfold RedisState.get
    rw [hdata, hexp]
  · exact get_some_of_live hgv hdata hexp hnow

/-- The counter key reads the same in the final state of the run as right
after the `INCR`. -/
theorem get_page_count_get {st st1 : RedisState} {u : String} {m : Nat}
    (h : st.incr ("count:" ++ u) = .ok (m, st1)) (net : Except NetErr Response) :
    (get_page net st u).state.get ("count:" ++ u) = st1.get ("count:" ++ u) := by
  obtain ⟨hd, he, hn⟩ := get_page_count_slot h net
  refine get_congr ?_ he ?_
  · rw [hd, (incr_spec h).2.2.1]
  · rw [hn, (incr_spec h).1]

/-- Core of claim C1: one `get_page` invocation moves the counter from `c`
to `c + 1`, whatever the cache and the network did. -/
theorem counter_increment {st : RedisState} {u : String}
    (net : Except NetErr Response) (h : countOk st u) :
    get_count ((get_page net st u).state) u = get_count st u + 1 := by
  obtain ⟨m, st1, hok⟩ := countOk_incr h
  have hfin : (get_page net st u).state.get ("count:" ++ u) = some (natToDec m) :=
    (get_page_count_get hok net).trans (incr_get_after hok)
  have h2 := get_count_of_get_num hfin
  rcases (incr_spec hok).2.2.2 with ⟨hgnone, hm, -⟩ | ⟨v, n, hgv, hdv, hm, -⟩
  · rw [h2, get_count_of_get_none hgnone, hm]
  · rw [h2, get_count_of_get_some hgv hdv, hm]

/-- Reading a key whose raw slot holds `v` yields `v` or nothing
(depending on expiry). -/
theorem get_of_data {st : RedisState} {k v : String} (h : st.data k = some v) :
    st.get k = none ∨ st.get k = some v := by
  unfold RedisState.get
  rw [h]
  cases he : st.expiry k with
  | none => right; rfl
  | some e =>
    by_cases hlt : st.now < e
    · right; simp [hlt]
    · left; simp [hlt]

theorem countOk_of_get_none {st : RedisState} {u : String}
    (h : st.get ("count:" ++ u) = none) : countOk st u := by
  simp only [countOk, h]

theorem countOk_of_data_num {st : RedisState} {u : String} {m : Nat}
    (h : st.data ("count:" ++ u) = some (natToDec m)) : countOk st u := by
  rcases get_of_data h with hg | hg
  · exact countOk_of_get_none hg
  · simp only [countOk, hg, decToNat?_natToDec, Option.isSome_some]

/-- `countOk` survives a `get_page` run followed by any passage of time:
the run leaves a decimal value in the counter slot, and expiry can only
make the key absent. -/
theorem countOk_after_get_page {st : RedisState} {u : String}
    (net : Except NetErr Response) (h : countOk st u) (d : Nat) :
    countOk (((get_page net st u).state).advance d) u := by
  obtain ⟨m, st1, hok⟩ := countOk_incr h
  have hd : ((get_page net st u).state.advance d).data ("count:" ++ u) =
      some (natToDec m) := (get_page_count_slot hok net).1
  exact countOk_of_data_num hd

/-! ### Lemmas: the counter invariant along a trace -/

theorem countInv_get_count {st : RedisState} {u : String} {n : Nat}
    (h : CountInv st u n) : get_count st u = n := by
  rcases h with ⟨h0, hg⟩ | ⟨-, hd, he⟩
  · rw [get_count_of_get_none hg, h0]
  · have hg : st.get ("count:" ++ u) = some (natToDec n) := by
      unfold RedisState.get
      rw [hd, he]
    exact get_count_of_get_num hg

theorem countInv_countOk {st : RedisState} {u : String} {n : Nat}
    (h : CountInv st u n) : countOk st u := by
  rcases h with ⟨-, hg⟩ | ⟨-, hd, -⟩
  · exact countOk_of_get_none hg
  · exact countOk_of_data_num hd

theorem incr_error_of_not_countOk {st : RedisState} {u : String}
    (h : ¬ countOk st u) : ∃ msg, st.incr ("count:" ++ u) = .error msg := by
  cases hg : st.get ("count:" ++ u) with
  | none => exact absurd (countOk_of_get_none hg) h
  | some v =>
    cases hd : decToNat? v with
    | some n =>
      exact absurd (by simp only [countOk, hg, hd, Option.isSome_some]) h
    | none =>
      refine ⟨"value is not an integer or out of range", ?_⟩
      simp only [RedisState.incr, hg, hd]

/-- One `get_page` invocation for `u` advances the counter invariant. -/
theorem countInv_fetch_self {st : RedisState} {u : String} {n : Nat}
    (net : Except NetErr Response) (h : CountInv st u n) :
    CountInv ((get_page net st u).state) u (n + 1) := by
  obtain ⟨m, st1, hok⟩ := countOk_incr (countInv_countOk h)
  obtain ⟨hnow, -, hdata1, hcases⟩ := incr_spec hok
  obtain ⟨hd, he, -⟩ := get_page_count_slot hok net
  rcases h with ⟨h0, hg⟩ | ⟨-, hdn, hen⟩
  · rcases hcases with ⟨-, hm, hexp⟩ | ⟨v, n2, hgv, -, -, -⟩
    · subst h0
      exact Or.inr ⟨Nat.one_pos, by rw [hd, hm], by rw [he, hexp]⟩
    · rw [hg] at hgv
      cases hgv
  · have hg : st.get ("count:" ++ u) = some (natToDec n) := by
      unfold RedisState.get
      rw [hdn, hen]
    rcases hcases with ⟨hgn, -, -⟩ | ⟨v, n2, hgv, hdv, hm, hexp⟩
    · rw [hg] at hgn
      cases hgn
    · rw [hg] at hgv
      have hv : v = natToDec n := (Option.some.inj hgv).symm
      subst hv
      rw [decToNat?_natToDec] at hdv
      have hn2 : n2 = n := (Option.some.inj hdv).symm
      subst hn2
      subst hm
      exact Or.inr ⟨Nat.succ_pos _, by rw [hd], by rw [he, hexp, hen]⟩

/-- `get` under time passage, in terms of the old slot. -/
theorem get_advance {st : RedisState} {k : String} (d : Nat) :
    (st.advance d).get k =
      match st.data k, st.expiry k with
      | none, _ => none
      | some v, none => some v
      | some v, some e => if st.now + d < e then some v else none := rfl

/-- An absent or expired key never becomes live again just by waiting. -/
theorem get_none_advance {st : RedisState} {k : String} {d : Nat}
    (h : st.get k = none) : (st.advance d).get k = none := by
  rw [get_advance]
  unfold RedisState.get at h
  cases hd : st.data k with
  | none => rfl
  | some v =>
    rw [hd] at h
    cases he : st.expiry k with
    | none =>
      rw [he] at h
      exact absurd h (by simp)
    | some e =>
      rw [he] at h
      by_cases hlt : st.now < e
      · exact absurd h (by simp [hlt])
      · have hlt2 : ¬ st.now + d < e := by omega
        show (if st.now + d < e then some v else none) = none
        rw [if_neg hlt2]

theorem countInv_tick {st : RedisState} {u : String} {n : Nat} (d : Nat)
    (h : CountInv st u n) : CountInv (st.advance d) u n := by
  rcases h with ⟨h0, hg⟩ | ⟨hp, hd, he⟩
  · exact Or.inl ⟨h0, get_none_advance hg⟩
  · exact Or.inr ⟨hp, hd, he⟩

/-- A `get_page` invocation for a different URL leaves `u`'s counter
invariant untouched. -/
theorem countInv_fetch_other {st : RedisState} {u u2 : String} {n : Nat}
    (net : Except NetErr Response) (hne : u2 ≠ u) (h : CountInv st u n) :
    CountInv ((get_page net st u2).state) u n := by
  by_cases hok2 : countOk st u2
  · obtain ⟨m, st1, hok⟩ := countOk_incr hok2
    obtain ⟨hd, he, hn⟩ := get_page_preserves hok net
      (count_key_inj (fun hc => hne hc.symm)) (count_key_ne_cache_key u u2)
    rcases h with ⟨h0, hg⟩ | ⟨hp, hdn, hen⟩
    · exact Or.inl ⟨h0, (get_congr hd he hn).trans hg⟩
    · exact Or.inr ⟨hp, hd.trans hdn, he.trans hen⟩
  · obtain ⟨msg, herr⟩ := incr_error_of_not_countOk hok2
    rw [get_page_eq_redis_error herr net]
    exact h

/-- A `reset_count` for a different URL leaves `u`'s counter invariant
untouched. -/
theorem countInv_reset_other {st : RedisState} {u u2 : String} {n : Nat}
    (hne : u2 ≠ u) (h : CountInv st u n) : CountInv (reset_count st u2) u n := by
  have hk : "count:" ++ u ≠ "count:" ++ u2 := count_key_inj fun hc => hne hc.symm
  have hd : (reset_count st u2).data ("count:" ++ u) = st.data ("count:" ++ u) := by
    simp [reset_count, RedisState.del, hk]
  have he : (reset_count st u2).expiry ("count:" ++ u) = st.expiry ("count:" ++ u) := by
    simp [reset_count, RedisState.del, hk]
  rcases h with ⟨h0, hg⟩ | ⟨hp, hdn, hen⟩
  · exact Or.inl ⟨h0, (get_congr hd he rfl).trans hg⟩
  · exact Or.inr ⟨hp, hd.trans hdn, he.trans hen⟩

/-- The counter invariant carried through a whole trace free of
`reset_count u`. -/
theorem run_countInv {u : String} :
    ∀ (evs : List Ev) (st : RedisState) (n : Nat), CountInv st u n →
      Ev.reset u ∉ evs →
      get_count (run evs st) u = n + countFetches u evs := by
  intro evs
  induction evs with
  | nil =>
    intro st n hinv hni
    simpa [run, countFetches] using countInv_get_count hinv
  | cons e evs ih =>
    intro st n hinv hni
    have hni2 : Ev.reset u ∉ evs := fun hm => hni (List.mem_cons_of_mem _ hm)
    cases e with
    | fetch u2 net =>
      by_cases hu : u2 = u
      · subst hu
        rw [show run (Ev.fetch u2 net :: evs) st = run evs (get_page net st u2).state
              from rfl,
          ih _ _ (countInv_fetch_self net hinv) hni2]
        simp [countFetches, List.countP_cons]
        omega
      · rw [show run (Ev.fetch u2 net :: evs) st = run evs (get_page net st u2).state
              from rfl,
          ih _ _ (countInv_fetch_other net hu hinv) hni2]
        simp [countFetches, List.countP_cons, hu]
    | tick d =>
      rw [show run (Ev.tick d :: evs) st = run evs (st.advance d) from rfl,
        ih _ _ (countInv_tick d hinv) hni2]
      simp [countFetches, List.countP_cons]
    | reset u2 =>
      have hu : u2 ≠ u := by
        intro hc
        subst hc
        exact hni (List.mem_cons_self _ _)
      rw [show run (Ev.reset u2 :: evs) st = run evs (reset_count st u2) from rfl,
        ih _ _ (countInv_reset_other hu hinv) hni2]
      simp [countFetches, List.countP_cons]

/-! ### Lemmas: hit and miss behaviour of a full invocation -/

theorem truthy_eq_true_iff {o : Option String} :
    truthy o = true ↔ ∃ s, o = some s ∧ s ≠ "" := by
  cases o with
  | none => simp [truthy]
  | some s =>
    rw [truthy_some_iff]
    constructor
    · intro h
      exact ⟨s, rfl, h⟩
    · rintro ⟨s2, hs2, hne⟩
      obtain rfl : s = s2 := Option.some.inj hs2
      exact hne

/-- The cache key reads the same after the decorator's `INCR` as before. -/
theorem incr_cache_get {st st1 : RedisState} {u : String} {m : Nat}
    (hok : st.incr ("count:" ++ u) = .ok (m, st1)) :
    st1.get ("cache:" ++ u) = st.get ("cache:" ++ u) := by
  obtain ⟨hnow, hother, -, -⟩ := incr_spec hok
  obtain ⟨hd, he⟩ := hother ("cache:" ++ u) fun hc => count_key_ne_cache_key u u hc.symm
  exact get_congr hd he hnow

/-- Behaviour of `get_page` on a cache hit (truthy cached value): the
cached body is returned decoded, the network is not consulted, and no slot
but the counter changes. -/
theorem hit_behavior {st : RedisState} {u c : String} (net : Except NetErr Response)
    (hok : countOk st u) (hc : st.get ("cache:" ++ u) = some c) (hne : c ≠ "") :
    (get_page net st u).result = .ok (decode_utf8 c) ∧
    (get_page net st u).networkCalled = false ∧
    (∀ k, k ≠ "count:" ++ u →
      (get_page net st u).state.data k = st.data k ∧
      (get_page net st u).state.expiry k = st.expiry k) ∧
    (get_page net st u).state.now = st.now := by
  obtain ⟨m, st1, hok2⟩ := countOk_incr hok
  obtain ⟨hnow, hother, -, -⟩ := incr_spec hok2
  have hch : st1.get ("cache:" ++ u) = some c := (incr_cache_get hok2).trans hc
  rw [get_page_eq_inner hok2 net, get_page_inner_hit hch hne net]
  exact ⟨rfl, rfl, fun k hk => hother k hk, hnow⟩

/-- Behaviour of `get_page` on a cache miss (absent or empty cached
value): the network is consulted; an exception propagates with no cache
write, a response is cached under the URL's cache key with expiry
`now + 10` and returned whatever its status code. -/
theorem miss_behavior {st : RedisState} {u : String}
    (hok : countOk st u) (hmiss : truthy (st.get ("cache:" ++ u)) = false) :
    (∀ e, (get_page (.error e) st u).result = .error (.net e) ∧
      (get_page (.error e) st u).networkCalled = true ∧
      (∀ k, k ≠ "count:" ++ u →
        (get_page (.error e) st u).state.data k = st.data k ∧
        (get_page (.error e) st u).state.expiry k = st.expiry k)) ∧
    (∀ resp : Response, (get_page (.ok resp) st u).result = .ok resp.text ∧
      (get_page (.ok resp) st u).networkCalled = true ∧
      (get_page (.ok resp) st u).state.data ("cache:" ++ u) = some resp.text ∧
      (get_page (.ok resp) st u).state.expiry ("cache:" ++ u) = some (st.now + 10) ∧
      (get_page (.ok resp) st u).state.now = st.now) := by
  obtain ⟨m, st1, hok2⟩ := countOk_incr hok
  obtain ⟨hnow, hother, -, -⟩ := incr_spec hok2
  have htr : truthy (st1.get ("cache:" ++ u)) = false := by
    rw [incr_cache_get hok2]
    exact hmiss
  constructor
  · intro e
    rw [get_page_eq_inner hok2 (.error e), get_page_inner_miss_err htr e]
    exact ⟨rfl, rfl, fun k hk => hother k hk⟩
  · intro resp
    rw [get_page_eq_inner hok2 (.ok resp), get_page_inner_miss_ok htr resp]
    refine ⟨rfl, rfl, by simp [RedisState.setex], ?_, ?_⟩
    · simp [RedisState.setex, hnow]
    · exact hnow

/-- Whatever the network oracle, a miss consults the network. -/
theorem miss_networkCalled {st : RedisState} {u : String}
    (net : Except NetErr Response)
    (hok : countOk st u) (hmiss : truthy (st.get ("cache:" ++ u)) = false) :
    (get_page net st u).networkCalled = true := by
  cases net with
  | error e => exact ((miss_behavior hok hmiss).1 e).2.1
  | ok resp => exact ((miss_behavior hok hmiss).2 resp).2.1

/-! ### The claims -/

/-- C1: every invocation of `get_page u` increments the counter for `u` by
exactly one — whatever the cache holds (hit or miss) and whatever the
network does (success or failure), since the decorator's `INCR` runs
before the cache lookup.  The hypothesis `countOk` (the counter slot is
absent or a decimal integer) holds in every reachable store and is the
precondition for Redis `INCR` itself not to raise. -/
theorem C1_counter_incremented_once_per_fetch (st : RedisState) (u : String)
    (net : Except NetErr Response) (h : countOk st u) :
    get_count ((get_page net st u).state) u = get_count st u + 1 :=
  counter_increment net h

theorem C1_counter_incremented_once_per_fetch_witness :
    countOk emptyStore "u" ∧
    get_count ((get_page (.error .timeout) emptyStore "u").state) "u" =
      get_count emptyStore "u" + 1 :=
  ⟨by decide,
    C1_counter_incremented_once_per_fetch emptyStore "u" (.error .timeout) (by decide)⟩

/-- C2: a URL whose counter is absent reads count 0, and after a trace
containing exactly N `get_page u` invocations (cache hits and misses
mixed, other URLs' fetches and resets and the passage of time freely
interleaved) with no `reset_count u`, `get_count u` reads N. -/
theorem C2_get_count_counts_fetches (u : String) (st : RedisState)
    (h : st.get ("count:" ++ u) = none) :
    get_count st u = 0 ∧
    ∀ evs : List Ev, Ev.reset u ∉ evs →
      get_count (run evs st) u = countFetches u evs := by
  refine ⟨get_count_of_get_none h, fun evs hni => ?_⟩
  simpa using run_countInv evs st 0 (Or.inl ⟨rfl, h⟩) hni

theorem C2_get_count_counts_fetches_witness :
    emptyStore.get ("count:" ++ "u") = none ∧ Ev.reset "u" ∉ exEvs ∧
    get_count emptyStore "u" = 0 ∧
    get_count (run exEvs emptyStore) "u" = countFetches "u" exEvs :=
  ⟨rfl, by decide, (C2_get_count_counts_fetches "u" emptyStore rfl).1,
    (C2_get_count_counts_fetches "u" emptyStore rfl).2 exEvs (by decide)⟩

/-- C3 counterexample: a cache entry for `"u"` is present in the store
(with body `""`), yet `get_page` performs a network call — refuting "for
every URL whose cache entry is present ... no network call", because
presence is tested by Python truthiness, not key existence. -/
theorem C3_cache_hit_cex :
    stEmptyCached.get ("cache:" ++ "u") = some "" ∧
    (get_page (.ok ⟨200, "hi"⟩) stEmptyCached "u").networkCalled = true := by
  decide

/-- C3 (amended): for every URL whose cache entry is present *and
nonempty* at lookup time, `get_page` returns the stored body verbatim,
decoded as text, performs no network call, and writes nothing but the
counter. -/
theorem C3_cache_hit_returns_cached (st : RedisState) (u c : String)
    (net : Except NetErr Response) (hok : countOk st u)
    (hc : st.get ("cache:" ++ u) = some c) (hne : c ≠ "") :
    (get_page net st u).result = .ok (decode_utf8 c) ∧
    (get_page net st u).networkCalled = false ∧
    ∀ k, k ≠ "count:" ++ u →
      (get_page net st u).state.data k = st.data k ∧
      (get_page net st u).state.expiry k = st.expiry k := by
  obtain ⟨h1, h2, h3, -⟩ := hit_behavior net hok hc hne
  exact ⟨h1, h2, h3⟩

theorem C3_cache_hit_returns_cached_witness :
    countOk stCached "u" ∧ stCached.get ("cache:" ++ "u") = some "hello" ∧
    (get_page (.error .timeout) stCached "u").result = .ok (decode_utf8 "hello") ∧
    (get_page (.error .timeout) stCached "u").networkCalled = false :=
  ⟨by decide, rfl,
    (C3_cache_hit_returns_cached stCached "u" "hello" (.error .timeout) (by decide) rfl
      (by decide)).1,
    (C3_cache_hit_returns_cached stCached "u" "hello" (.error .timeout) (by decide) rfl
      (by decide)).2.1⟩

/-- C4: on a cache miss (entry absent), `get_page` performs the HTTP GET,
stores the response body under `cache:<url>` with a fixed TTL of 10
seconds (absolute expiry `now + 10`), and returns that body. -/
theorem C4_cache_miss_fetches_and_caches (st : RedisState) (u : String)
    (resp : Response) (hok : countOk st u)
    (hc : st.get ("cache:" ++ u) = none) :
    (get_page (.ok resp) st u).result = .ok resp.text ∧
    (get_page (.ok resp) st u).networkCalled = true ∧
    (get_page (.ok resp) st u).state.data ("cache:" ++ u) = some resp.text ∧
    (get_page (.ok resp) st u).state.expiry ("cache:" ++ u) = some (st.now + 10) := by
  have hmiss : truthy (st.get ("cache:" ++ u)) = false := by
    rw [hc]
    rfl
  obtain ⟨h1, h2, h3, h4, -⟩ := (miss_behavior hok hmiss).2 resp
  exact ⟨h1, h2, h3, h4⟩

theorem C4_cache_miss_fetches_and_caches_witness :
    countOk emptyStore "u" ∧ emptyStore.get ("cache:" ++ "u") = none ∧
    (get_page (.ok ⟨200, "hello"⟩) emptyStore "u").result = .ok "hello" ∧
    (get_page (.ok ⟨200, "hello"⟩) emptyStore "u").state.expiry ("cache:" ++ "u") =
      some (emptyStore.now + 10) :=
  ⟨by decide, rfl,
    (C4_cache_miss_fetches_and_caches emptyStore "u" ⟨200, "hello"⟩ (by decide) rfl).1,
    (C4_cache_miss_fetches_and_caches emptyStore "u" ⟨200, "hello"⟩ (by decide) rfl).2.2.2⟩

/-- C5 counterexample: a non-2xx HTTP status does not surface as an
error — `requests.get` does not raise on status codes, and `get_page`
never inspects `response.status`, so the 404 body is returned as a normal
result, refuting "a non-2xx HTTP status causes `get_page` to surface a
`FetchError` rather than returning a body". -/
theorem C5_non2xx_cex :
    ¬ (200 ≤ 404 ∧ 404 < 300) ∧
    (get_page (.ok ⟨404, "not found"⟩) emptyStore "u").result = .ok "not found" := by
  decide

/-- C5 (amended): on a cache miss, a network-level fetch failure —
timeout or connection refused — surfaces as the underlying `requests`
exception rather than returning a body; a response with a non-2xx status
is *not* an error: its body is returned like any other. -/
theorem C5_network_failure_raises (st : RedisState) (u : String) (e : NetErr)
    (hok : countOk st u) (hmiss : truthy (st.get ("cache:" ++ u)) = false) :
    (get_page (.error e) st u).result = .error (.net e) ∧
    ∀ resp : Response, (get_page (.ok resp) st u).result = .ok resp.text := by
  exact ⟨((miss_behavior hok hmiss).1 e).1, fun resp => ((miss_behavior hok hmiss).2 resp).1⟩

theorem C5_network_failure_raises_witness :
    countOk emptyStore "u" ∧ truthy (emptyStore.get ("cache:" ++ "u")) = false ∧
    (get_page (.error .timeout) emptyStore "u").result = .error (.net .timeout) :=
  ⟨by decide, rfl,
    (C5_network_failure_raises emptyStore "u" .timeout (by decide) rfl).1⟩

/-- C6: `reset_count u` deletes the counter slot entirely; afterwards
`get_count u` reads 0 and a `get_page u` makes the counter 1 again;
`reset_count` is idempotent, and on a URL with no counter slot at all it
is the identity on the store (a no-op, not an error — `reset_count` is a
total function). -/
theorem C6_reset_count_spec (st : RedisState) (u : String)
    (net : Except NetErr Response) :
    (reset_count st u).data ("count:" ++ u) = none ∧
    get_count (reset_count st u) u = 0 ∧
    reset_count (reset_count st u) u = reset_count st u ∧
    (st.data ("count:" ++ u) = none ∧ st.expiry ("count:" ++ u) = none →
      reset_count st u = st) ∧
    get_count ((get_page net (reset_count st u) u).state) u = 1 := by
  have h1 : (reset_count st u).get ("count:" ++ u) = none := by
    unfold reset_count RedisState.del RedisState.get
    simp
  refine ⟨by simp [reset_count, RedisState.del], get_count_of_get_none h1, ?_, ?_, ?_⟩
  · unfold reset_count RedisState.del
    refine RedisState.ext ?_ ?_ rfl <;> funext k <;>
      by_cases hk : k = "count:" ++ u <;> simp [hk]
  · rintro ⟨hd, he⟩
    unfold reset_count RedisState.del
    refine RedisState.ext ?_ ?_ rfl <;> funext k
    · by_cases hk : k = "count:" ++ u
      · subst hk
        simp [hd]
      · simp [hk]
    · by_cases hk : k = "count:" ++ u
      · subst hk
        simp [he]
      · simp [hk]
  · rw [counter_increment net (countOk_of_get_none h1), get_count_of_get_none h1]

theorem C6_reset_count_spec_witness :
    (emptyStore.data ("count:" ++ "u") = none ∧
      emptyStore.expiry ("count:" ++ "u") = none) ∧
    reset_count emptyStore "u" = emptyStore ∧
    get_count ((get_page (.ok ⟨200, "hi"⟩) (reset_count emptyStore "u") "u").state) "u" = 1 :=
  ⟨⟨rfl, rfl⟩,
    (C6_reset_count_spec emptyStore "u" (.ok ⟨200, "hi"⟩)).2.2.2.1 ⟨rfl, rfl⟩,
    (C6_reset_count_spec emptyStore "u" (.ok ⟨200, "hi"⟩)).2.2.2.2⟩

/-- C7 counterexample: a body (here `""`) is written to the cache by a
miss; 5 units later — inside the TTL window — the entry is still visible
in the store, yet the next `get_page` performs a new network call,
refuting "a fetch within the TTL window returns the cached body with no
new network call". -/
theorem C7_ttl_cex :
    ((get_page (.ok ⟨200, ""⟩) emptyStore "u").state.advance 5).get ("cache:" ++ "u") =
      some "" ∧
    (get_page (.ok ⟨200, "x"⟩)
      ((get_page (.ok ⟨200, ""⟩) emptyStore "u").state.advance 5) "u").networkCalled =
      true := by
  decide

/-- C7 (amended): a body written to the cache is visible to readers of the
store until exactly its TTL elapses (`d < 10`) and invisible afterwards
(`10 ≤ d`); a `get_page` within the window returns the cached body with no
network call *provided the body is nonempty*, and a `get_page` after the
window performs a new network call. -/
theorem C7_ttl_visibility (st0 : RedisState) (u body : String) (d : Nat)
    (net : Except NetErr Response) :
    (d < 10 →
      ((st0.setex ("cache:" ++ u) 10 body).advance d).get ("cache:" ++ u) = some body) ∧
    (10 ≤ d →
      ((st0.setex ("cache:" ++ u) 10 body).advance d).get ("cache:" ++ u) = none) ∧
    (d < 10 → body ≠ "" →
      countOk ((st0.setex ("cache:" ++ u) 10 body).advance d) u →
      (get_page net ((st0.setex ("cache:" ++ u) 10 body).advance d) u).result =
        .ok (decode_utf8 body) ∧
      (get_page net ((st0.setex ("cache:" ++ u) 10 body).advance d) u).networkCalled =
        false) ∧
    (10 ≤ d →
      countOk ((st0.setex ("cache:" ++ u) 10 body).advance d) u →
      (get_page net ((st0.setex ("cache:" ++ u) 10 body).advance d) u).networkCalled =
        true) := by
  have hda : ((st0.setex ("cache:" ++ u) 10 body).advance d).data ("cache:" ++ u) =
      some body := by
    simp [RedisState.setex, RedisState.advance]
  have hex : ((st0.setex ("cache:" ++ u) 10 body).advance d).expiry ("cache:" ++ u) =
      some (st0.now + 10) := by
    simp [RedisState.setex, RedisState.advance]
  have hvis : d < 10 →
      ((st0.setex ("cache:" ++ u) 10 body).advance d).get ("cache:" ++ u) = some body := by
    intro hd
    unfold RedisState.get
    rw [hda, hex]
    show (if st0.now + d < st0.now + 10 then some body else none) = some body
    rw [if_pos (by omega)]
  have hinvis : 10 ≤ d →
      ((st0.setex ("cache:" ++ u) 10 body).advance d).get ("cache:" ++ u) = none := by
    intro hd
    unfold RedisState.get
    rw [hda, hex]
    show (if st0.now + d < st0.now + 10 then some body else none) = none
    rw [if_neg (by omega)]
  refine ⟨hvis, hinvis, ?_, ?_⟩
  · intro hd hne hok
    obtain ⟨h1, h2, -, -⟩ := hit_behavior net hok (hvis hd) hne
    exact ⟨h1, h2⟩
  · intro hd hok
    have hmiss : truthy (((st0.setex ("cache:" ++ u) 10 body).advance d).get
        ("cache:" ++ u)) = false := by
      rw [hinvis hd]
      rfl
    exact miss_networkCalled net hok hmiss

theorem C7_ttl_visibility_witness :
    (3 < 10 ∧
      ((emptyStore.setex ("cache:" ++ "u") 10 "hello").advance 3).get ("cache:" ++ "u") =
        some "hello" ∧
      (get_page (.error .timeout)
        ((emptyStore.setex ("cache:" ++ "u") 10 "hello").advance 3) "u").networkCalled =
        false) ∧
    (10 ≤ 12 ∧
      ((emptyStore.setex ("cache:" ++ "u") 10 "hello").advance 12).get ("cache:" ++ "u") =
        none ∧
      (get_page (.ok ⟨200, "x"⟩)
        ((emptyStore.setex ("cache:" ++ "u") 10 "hello").advance 12) "u").networkCalled =
        true) :=
  ⟨⟨by decide,
      (C7_ttl_visibility emptyStore "u" "hello" 3 (.error .timeout)).1 (by decide),
      ((C7_ttl_visibility emptyStore "u" "hello" 3 (.error .timeout)).2.2.1 (by decide)
        (by decide) (by decide)).2⟩,
    ⟨by decide,
      (C7_ttl_visibility emptyStore "u" "hello" 12 (.ok ⟨200, "x"⟩)).2.1 (by decide),
      (C7_ttl_visibility emptyStore "u" "hello" 12 (.ok ⟨200, "x"⟩)).2.2.2 (by decide)
        (by decide)⟩⟩

/-- C8: when a `get_page u` invocation fails after it has begun (the only
failing runs the module's code admits: a cache miss whose network fetch
raises — plus, unreachably, a malformed counter making `INCR` itself
raise, which leaves the store fully untouched), the final store is exactly
the pre-call store with only the counter incremented: the counter
increment always lands, and no other slot or the clock changes. -/
theorem C8_failure_preserves_state_except_counter (st st1 : RedisState)
    (u : String) (net : Except NetErr Response) (m : Nat) (e : PyErr)
    (hok : st.incr ("count:" ++ u) = .ok (m, st1))
    (hfail : (get_page net st u).result = .error e) :
    (get_page net st u).state = st1 ∧
    st1.data ("count:" ++ u) = some (natToDec m) ∧
    (∀ k, k ≠ "count:" ++ u → st1.data k = st.data k ∧ st1.expiry k = st.expiry k) ∧
    st1.now = st.now := by
  obtain ⟨hnow, hother, hdata, -⟩ := incr_spec hok
  refine ⟨?_, hdata, hother, hnow⟩
  rw [get_page_eq_inner hok net] at hfail ⊢
  cases htr : truthy (st1.get ("cache:" ++ u)) with
  | false =>
    cases net with
    | error e2 => rw [get_page_inner_miss_err htr e2]
    | ok resp =>
      rw [get_page_inner_miss_ok htr resp] at hfail
      cases hfail
  | true =>
    obtain ⟨c, hc, hne⟩ := truthy_eq_true_iff.mp htr
    rw [get_page_inner_hit hc hne net] at hfail
    cases hfail

theorem C8_failure_preserves_state_except_counter_witness :
    emptyStore.incr ("count:" ++ "u") = .ok (1, stCount1) ∧
    (get_page (.error .timeout) emptyStore "u").result = .error (.net .timeout) ∧
    (get_page (.error .timeout) emptyStore "u").state = stCount1 :=
  ⟨rfl, rfl,
    (C8_failure_preserves_state_except_counter emptyStore stCount1 "u"
      (.error .timeout) 1 (.net .timeout) rfl rfl).1⟩

/-- C9: a present cache entry holding the empty string is treated as a
miss — `if cached_content:` tests Python truthiness, and empty bytes are
falsy — so `get_page` performs the network fetch, overwrites the entry
(with a fresh 10-second TTL), and returns the fetched body. -/
theorem C9_empty_cached_body_is_miss (st : RedisState) (u : String)
    (resp : Response) (hok : countOk st u)
    (hc : st.get ("cache:" ++ u) = some "") :
    (get_page (.ok resp) st u).networkCalled = true ∧
    (get_page (.ok resp) st u).result = .ok resp.text ∧
    (get_page (.ok resp) st u).state.data ("cache:" ++ u) = some resp.text ∧
    (get_page (.ok resp) st u).state.expiry ("cache:" ++ u) = some (st.now + 10) := by
  have hmiss : truthy (st.get ("cache:" ++ u)) = false := by
    rw [hc]
    rfl
  obtain ⟨h1, h2, h3, h4, -⟩ := (miss_behavior hok hmiss).2 resp
  exact ⟨h2, h1, h3, h4⟩

theorem C9_empty_cached_body_is_miss_witness :
    countOk stEmptyCached "u" ∧ stEmptyCached.get ("cache:" ++ "u") = some "" ∧
    (get_page (.ok ⟨200, "fresh"⟩) stEmptyCached "u").networkCalled = true ∧
    (get_page (.ok ⟨200, "fresh"⟩) stEmptyCached "u").state.data ("cache:" ++ "u") =
      some "fresh" :=
  ⟨by decide, rfl,
    (C9_empty_cached_body_is_miss stEmptyCached "u" ⟨200, "fresh"⟩ (by decide) rfl).1,
    (C9_empty_cached_body_is_miss stEmptyCached "u" ⟨200, "fresh"⟩ (by decide) rfl).2.2.1⟩

/-- C10 counterexample: a 404 with an empty body is cached, but a caller
3 units later — inside the TTL window — is *not* served the cached body:
the empty entry reads as a miss, the fetch is re-attempted and here fails,
refuting "the error-page body is cached and served to subsequent callers
within the TTL window" as a universal statement. -/
theorem C10_non2xx_cex :
    (get_page (.ok ⟨404, ""⟩) emptyStore "u").state.get ("cache:" ++ "u") = some "" ∧
    (get_page (.error .timeout)
      ((get_page (.ok ⟨404, ""⟩) emptyStore "u").state.advance 3) "u").result =
      .error (.net .timeout) := by
  decide

/-- C10 (amended): on a miss, the response body is cached with the
10-second TTL and returned whatever the status code; for a non-2xx
response with a *nonempty* body, a subsequent `get_page` within the TTL
window serves the cached error page with no new network call (an empty
error body is cached too, but re-read as a miss). -/
theorem C10_non2xx_cached_and_served (st : RedisState) (u : String)
    (resp : Response) (d : Nat) (net2 : Except NetErr Response)
    (hok : countOk st u) (hmiss : truthy (st.get ("cache:" ++ u)) = false)
    (_hstatus : ¬ (200 ≤ resp.status ∧ resp.status < 300))
    (hbody : resp.text ≠ "") (hd : d < 10) :
    (get_page (.ok resp) st u).result = .ok resp.text ∧
    (get_page (.ok resp) st u).state.data ("cache:" ++ u) = some resp.text ∧
    (get_page (.ok resp) st u).state.expiry ("cache:" ++ u) = some (st.now + 10) ∧
    (get_page net2 (((get_page (.ok resp) st u).state).advance d) u).result =
      .ok (decode_utf8 resp.text) ∧
    (get_page net2 (((get_page (.ok resp) st u).state).advance d) u).networkCalled =
      false := by
  obtain ⟨hr, -, hdat, hexp, hnw⟩ := (miss_behavior hok hmiss).2 resp
  have hd2 : (((get_page (.ok resp) st u).state).advance d).data ("cache:" ++ u) =
      some resp.text := hdat
  have he2 : (((get_page (.ok resp) st u).state).advance d).expiry ("cache:" ++ u) =
      some (st.now + 10) := hexp
  have hn2 : (((get_page (.ok resp) st u).state).advance d).now = st.now + d := by
    show (get_page (.ok resp) st u).state.now + d = st.now + d
    rw [hnw]
  have hget : (((get_page (.ok resp) st u).state).advance d).get ("cache:" ++ u) =
      some resp.text := by
    unfold RedisState.get
    rw [hd2, he2]
    show (if (((get_page (.ok resp) st u).state).advance d).now < st.now + 10
        then some resp.text else none) = some resp.text
    rw [hn2, if_pos (by omega)]
  have hokS : countOk (((get_page (.ok resp) st u).state).advance d) u :=
    countOk_after_get_page (.ok resp) hok d
  obtain ⟨h4, h5, -, -⟩ := hit_behavior net2 hokS hget hbody
  exact ⟨hr, hdat, hexp, h4, h5⟩

theorem C10_non2xx_cached_and_served_witness :
    countOk emptyStore "u" ∧ truthy (emptyStore.get ("cache:" ++ "u")) = false ∧
    ¬ (200 ≤ 404 ∧ 404 < 300) ∧ ("not found" : String) ≠ "" ∧ 3 < 10 ∧
    (get_page (.ok ⟨404, "not found"⟩) emptyStore "u").state.data ("cache:" ++ "u") =
      some "not found" ∧
    (get_page (.error .timeout)
      (((get_page (.ok ⟨404, "not found"⟩) emptyStore "u").state).advance 3) "u").result =
      .ok (decode_utf8 "not found") ∧
    (get_page (.error .timeout)
      (((get_page (.ok ⟨404, "not found"⟩) emptyStore "u").state).advance 3)
        "u").networkCalled = false :=
  ⟨by decide, rfl, by decide, by decide, by decide,
    (C10_non2xx_cached_and_served emptyStore "u" ⟨404, "not found"⟩ 3 (.error .timeout)
      (by decide) rfl (by decide) (by decide) (by decide)).2.1,
    (C10_non2xx_cached_and_served emptyStore "u" ⟨404, "not found"⟩ 3 (.error .timeout)
      (by decide) rfl (by decide) (by decide) (by decide)).2.2.2.1,
    (C10_non2xx_cached_and_served emptyStore "u" ⟨404, "not found"⟩ 3 (.error .timeout)
      (by decide) rfl (by decide) (by decide) (by decide)).2.2.2.2⟩

end WebCache
